import Mathlib

/-!
# RASIS — verification of the deduplicated, rate-limited publication pipeline

Shallow embedding of the two source files `database.py` and `rasis.py`.

Modelling conventions:
* SQLite tables become Lean lists kept in insertion (rowid) order;
  `AUTOINCREMENT` ids are modelled by `next_queue_id` / `next_log_id`
  counters starting at 1.
* Timestamps are `Int` seconds on a UTC host.  Comparisons between values
  rendered in the same format (e.g. two `CURRENT_TIMESTAMP` column
  defaults) are faithful as `≤` on `Int`.  The one mixed-format comparison
  in the code — `posted_at >= ?` in `get_posts_in_last_hour`, which
  compares a `CURRENT_TIMESTAMP` default (`YYYY-MM-DD HH:MM:SS`) against a
  `datetime.isoformat()` cutoff (`YYYY-MM-DDTHH:MM:SS.ffffff`) as TEXT —
  is modelled by its actual lexicographic semantics: it holds iff the
  record's date prefix strictly exceeds the cutoff's (see `iso_day`).
  One hour is 3600.
* Each call to `datetime.now()` within a single run is modelled by the run's
  single clock value `now` (a run is modelled as instantaneous).
* `json.dumps` / `json.loads` round-trip a post unchanged, so the
  `post_data` column holds the `Post` itself.
* The external HTTP publish call (`post_on_fedi`'s network part) is modelled
  by a parameter `publish : String → Bool` giving the outcome per content.
* `hashlib.sha256(s).hexdigest()` is modelled by an injective deterministic
  digest function of the string `s`.
* SQL `ORDER BY created_at ASC` carries no secondary sort key, so SQLite
  leaves the relative order of rows with equal keys undefined.  What the
  query guarantees is captured by the relation `pendingQueryResult` (any
  creation-time-sorted permutation, truncated by the limit); the executable
  `get_pending_posts` picks one admissible order (a stable sort) so the
  pipeline stays runnable, and ordering claims are settled against the
  relation, not the pick.
-/

namespace Rasis

/-- One row of the `post_queue` table (`database.py`, `init_database`). -/
structure Post where
  identifier : String
  content : String
  date : String
  /-- the feed's optional numeric `timestamp` field; `none` models a value
  `int()` cannot parse (the `ValueError`/`TypeError` path). -/
  timestamp : Option Int
  is_ai_summary : Bool
  type : Option String
  headline : Option String
  url : Option String
  /-- each element is the `image` URL of one entry of `post_data["images"]`. -/
  images : List String
deriving DecidableEq

/-- One row of the `post_queue` table: columns `id`, `post_data`, `content`,
`created_at`, `posted_at`, `status` (`database.py`, `init_database`). -/
structure QueueEntry where
  id : Nat
  post_data : Post
  content : String
  created_at : Int
  posted_at : Option Int
  status : String
deriving DecidableEq

/-- One row of the `posting_log` table: `id`, `posted_at`, `queue_id`. -/
structure LogRecord where
  id : Nat
  posted_at : Int
  queue_id : Nat
deriving DecidableEq

/-- The whole SQLite database `rasis.db`. -/
structure DB where
  processed_hashes : List String
  post_queue : List QueueEntry
  posting_log : List LogRecord
  next_queue_id : Nat
  next_log_id : Nat
deriving DecidableEq

/-- `DatabaseManager.init_database`: fresh database, empty tables. -/
def init_database : DB :=
  { processed_hashes := [], post_queue := [], posting_log := []
    next_queue_id := 1, next_log_id := 1 }

/-- `DatabaseManager.is_hash_processed`:
`SELECT 1 FROM processed_hashes WHERE hash = ?` is non-empty. -/
def is_hash_processed (db : DB) (hash_value : String) : Bool :=
  db.processed_hashes.contains hash_value

/-- `DatabaseManager.add_processed_hash`:
`INSERT OR IGNORE INTO processed_hashes (hash) VALUES (?)` — the `UNIQUE`
constraint on `hash` makes the insert a no-op when the hash is present. -/
def add_processed_hash (db : DB) (hash_value : String) : DB :=
  if db.processed_hashes.contains hash_value then db
  else { db with processed_hashes := db.processed_hashes ++ [hash_value] }

/-- `DatabaseManager.add_to_queue`:
`INSERT INTO post_queue (post_data, content) VALUES (?, ?)`; `created_at`
defaults to `CURRENT_TIMESTAMP` (= `now`), `status` defaults to `'pending'`,
`posted_at` to `NULL`; returns `cursor.lastrowid`. -/
def add_to_queue (db : DB) (post_data : Post) (content : String) (now : Int) :
    DB × Nat :=
  ({ db with
      post_queue := db.post_queue ++
        [{ id := db.next_queue_id, post_data := post_data, content := content
           created_at := now, posted_at := none, status := "pending" }]
      next_queue_id := db.next_queue_id + 1 },
   db.next_queue_id)

/-- `status = 'pending'` row predicate of the `WHERE` clause. -/
def isPending (q : QueueEntry) : Bool := q.status == "pending"

/-- `DatabaseManager.get_pending_posts`:
`SELECT … FROM post_queue WHERE status = 'pending' ORDER BY created_at ASC`,
with ` LIMIT {limit}` appended only when `limit` is truthy (`if limit:` —
`None` and `0` are falsy in Python).  A negative SQLite `LIMIT` means
unlimited.  The stable sort here is one admissible realization of the
query; `pendingQueryResult` below states what the SQL actually guarantees
(the relative order of rows with equal `created_at` is unspecified). -/
def get_pending_posts (db : DB) (limit : Option Int) : List QueueEntry :=
  let rows := List.insertionSort (fun a b => a.created_at ≤ b.created_at)
    (db.post_queue.filter isPending)
  match limit with
  | none => rows
  | some l =>
    if l ≠ 0 then
      (if 0 < l then rows.take l.toNat else rows)
    else rows

/-- What `SELECT … WHERE status = 'pending' ORDER BY created_at ASC
[LIMIT n]` guarantees about its result: a creation-time-sorted permutation
of the pending rows, truncated by the limit.  The query has no secondary
sort key, so SQLite leaves the relative order of rows with equal
`created_at` undefined: every sorted permutation is an admissible result,
and `get_pending_posts` returns one of them. -/
def pendingQueryResult (db : DB) (limit : Option Int)
    (res : List QueueEntry) : Prop :=
  ∃ full : List QueueEntry,
    full.Perm (db.post_queue.filter isPending) ∧
    List.Sorted (fun a b => a.created_at ≤ b.created_at) full ∧
    res = (match limit with
           | none => full
           | some l =>
             if l ≠ 0 then (if 0 < l then full.take l.toNat else full)
             else full)

/-- `DatabaseManager.mark_post_as_posted`: unconditionally
`UPDATE post_queue SET status = 'posted', posted_at = ? WHERE id = ?` and
`INSERT INTO posting_log (queue_id) VALUES (?)` (its `posted_at` defaults to
`CURRENT_TIMESTAMP`).  No existence or status check of any kind. -/
def mark_post_as_posted (db : DB) (queue_id : Nat) (now : Int) : DB :=
  { db with
    post_queue := db.post_queue.map (fun q =>
      if q.id = queue_id then { q with status := "posted", posted_at := some now }
      else q)
    posting_log := db.posting_log ++
      [{ id := db.next_log_id, posted_at := now, queue_id := queue_id }]
    next_log_id := db.next_log_id + 1 }

/-- The `YYYY-MM-DD` date prefix of a rendered timestamp, as a day index
(UTC host, so both of the code's clocks render the same instants). -/
def iso_day (t : Int) : Int := t / 86400

/-- `DatabaseManager.get_posts_in_last_hour`:
`SELECT COUNT(*) FROM posting_log WHERE posted_at >= ?` with the parameter
`(datetime.now() - timedelta(hours=1)).isoformat()`.

The comparison is TEXT with binary collation, and its two sides use
different renderings: `posting_log.posted_at` holds the column default
`CURRENT_TIMESTAMP` (`mark_post_as_posted` inserts only `queue_id`), which
renders as `YYYY-MM-DD HH:MM:SS`, while the parameter renders as
`YYYY-MM-DDTHH:MM:SS.ffffff`.  The fixed-width 10-character date prefixes
compare first; when they are equal the next characters are a space (0x20)
on the stored side versus `T` (0x54) on the cutoff side, so a same-date
record always compares **below** the cutoff.  Hence `posted_at >= cutoff`
holds iff the record's date prefix strictly exceeds the cutoff's date
prefix, which is how the predicate is written here. -/
def get_posts_in_last_hour (db : DB) (now : Int) : Nat :=
  db.posting_log.countP
    (fun r => decide (iso_day (now - 3600) < iso_day r.posted_at))

/-- `DatabaseManager.can_post_more`. -/
def can_post_more (db : DB) (now : Int) (max_per_hour : Nat) : Bool :=
  get_posts_in_last_hour db now < max_per_hour

/-- `DatabaseManager.get_queue_stats`: (pending, posted, posts_last_hour). -/
def get_queue_stats (db : DB) (now : Int) : Nat × Nat × Nat :=
  (db.post_queue.countP (fun q => q.status == "pending"),
   db.post_queue.countP (fun q => q.status == "posted"),
   get_posts_in_last_hour db now)

/-- `rasis.is_post_after_start_date`.  `start_date` is `none` when the
`START_DATE` environment variable is unset (`if not START_DATE`) or does not
parse (`except` returns `True`); a post timestamp of `none` models the
`int(post_date)` failure path, which also returns `True`. -/
def is_post_after_start_date (start_date : Option Int)
    (post_timestamp : Option Int) : Bool :=
  match start_date with
  | none => true
  | some sd =>
    match post_timestamp with
    | none => true
    | some ts => sd ≤ ts

/-- `pat` occurs at the start of `s` (character lists). -/
def charsStartWith : List Char → List Char → Bool
  | _, [] => true
  | [], _ :: _ => false
  | c :: s, d :: t => c == d && charsStartWith s t

/-- `pat` occurs somewhere inside `s` (character lists). -/
def charsHaveSubstr (s pat : List Char) : Bool :=
  charsStartWith s pat ||
    (match s with
     | [] => false
     | _ :: s' => charsHaveSubstr s' pat)

/-- Python's substring test `pat in s` for the non-empty literals used by
`generate_post_content`. -/
def containsSubstr (s pat : String) : Bool := charsHaveSubstr s.data pat.data

/-- The `if/elif` identifier chain of `rasis.generate_post_content`, in
source order: display name, hashtag line, and whether the branch clears
`post_data['headline']` (the `post_data['headline'] = None` assignments). -/
def category_of (identifier : String) : Option (String × String × Bool) :=
  if containsSubstr identifier "IIDX" then
    some ("beatmania IIDX", "#iidx #beatmania #bemani", false)
  else if containsSubstr identifier "SOUND_VOLTEX" then
    some ("SOUND VOLTEX", "#sdvx #soundvoltex #bemani", false)
  else if containsSubstr identifier "DDR" then
    some ("DanceDanceRevolution", "#ddr #dancedancerevolution #bemani", false)
  else if containsSubstr identifier "POPN_MUSIC" then
    some ("pop\x27n music", "#popn #bemani", false)
  else if containsSubstr identifier "JUBEAT" then
    some ("jubeat", "#jubeat #bemani", false)
  else if containsSubstr identifier "GITADORA " then
    some ("GITADORA", "#gitadora #bemani", false)
  else if containsSubstr identifier "NOSTALGIA" then
    some ("NOSTALGIA", "#bemani", false)
  else if containsSubstr identifier "CHUNITHM_JP" then
    some ("CHUNITHM (JPN)", "#chunithm", true)
  else if containsSubstr identifier "CHUNITHM_INTL" then
    some ("CHUNITHM (International)", "#chunithm", true)
  else if containsSubstr identifier "MAIMAIDX_JP" then
    some ("maimai DX (JPN)", "#maimaidx", true)
  else if containsSubstr identifier "MAIMAIDX_INTL" then
    some ("maimai DX (International)", "#maimaidx", true)
  else if containsSubstr identifier "ONGEKI_JPN" then
    some ("O.N.G.E.K.I (JPN)", "#ongeki", true)
  else if containsSubstr identifier "TAIKO" then
    some ("Taiko no Tatsujin", "#taikonotatsufin", false)
  else none

/-- `rasis.generate_post_content`: returns `none` (Python `None`) when the
identifier matches no branch of the chain, otherwise assembles the post
text exactly as the source does. -/
def generate_post_content (post_data : Post) : Option String :=
  match category_of post_data.identifier with
  | none => none
  | some (game, tags, clear_headline) =>
    let headline := if clear_headline then none else post_data.headline
    let content := "📰 " ++ game ++ " - " ++ post_data.date ++ "\n\n"
    let content := if post_data.is_ai_summary then
        content ++
          "The information below is written by AI / 上記の情報はAIによって生成されました。\n\n"
      else content
    let content := match post_data.type with
      | some t => content ++ "[" ++ t ++ "] "
      | none => content
    let content := match headline with
      | some h => if h ≠ post_data.content then content ++ h ++ "\n\n" else content
      | none => content
    let content := if post_data.content.length > 2500 then
        content ++ (post_data.content.take 2500 ++ "...") ++ "\n\n"
      else content ++ post_data.content ++ "\n\n"
    let content := match post_data.url with
      | some u => content ++ "🔗 " ++ u ++ "\n"
      | none => content
    let content := content ++ String.join (post_data.images.enum.map (fun p =>
      "🖼 [Image" ++ toString (p.1 + 1) ++ "](" ++ p.2 ++ ")\n"))
    some (content ++ tags)

/-- Models `hashlib.sha256(s.encode('utf-8')).hexdigest()` as an injective
deterministic digest of `s`. -/
def sha256_hex (s : String) : String := "sha256:" ++ s

/-- The fingerprint of `rasis.generate_queued_posts`, line 44:
sha256 over `post['identifier'] + post['content'] + post['date']`. -/
def post_hash (post : Post) : String :=
  sha256_hex (post.identifier ++ post.content ++ post.date)

/-- The headline mutation `generate_post_content` performs on the shared
`post_data` dict before the caller stores or collects it. -/
def effective_post (post : Post) : Post :=
  match category_of post.identifier with
  | some (_, _, true) => { post with headline := none }
  | _ => post

/-- The body of the `for post in news_posts:` loop of
`rasis.generate_queued_posts`. -/
def ingest_step (start_date : Option Int) (now : Int) (dry_run : Bool)
    (acc : DB × List Post) (post : Post) : DB × List Post :=
  if ¬ is_post_after_start_date start_date post.timestamp then acc
  else if is_hash_processed acc.1 (post_hash post) then acc
  else
    match generate_post_content post with
    | none => acc
    | some content =>
      if ¬ dry_run then
        ((add_processed_hash
            (add_to_queue acc.1 (effective_post post) content now).1
            (post_hash post)),
         acc.2 ++ [effective_post post])
      else (acc.1, acc.2 ++ [effective_post post])

/-- `rasis.generate_queued_posts`.  `feed = none` models a non-200 HTTP
status (function returns the empty list leaving the db untouched);
otherwise `feed` is `data["news_posts"]`.  Returns the final db and the
accumulated `new_posts` list. -/
def generate_queued_posts (start_date : Option Int) (db : DB)
    (feed : Option (List Post)) (now : Int) (dry_run : Bool) :
    DB × List Post :=
  match feed with
  | none => (db, [])
  | some news_posts =>
    news_posts.foldl (ingest_step start_date now dry_run) (db, [])

/-- `rasis.post_on_fedi`: in dry-run mode it only prints and returns `True`;
otherwise the outcome of the HTTPS call is given by `publish`. -/
def post_on_fedi (publish : String → Bool) (content : String)
    (dry_run : Bool) : Bool :=
  if dry_run then true else publish content

/-- `available_slots = max(0, POSTS_PER_HOUR - posts_made)` of
`rasis.process_queue`, line 182. -/
def available_slots (posts_per_hour posts_made : Nat) : Int :=
  max 0 ((posts_per_hour : Int) - (posts_made : Int))

/-- The body of the `for post in pending_posts:` loop of
`rasis.process_queue`: publish, and on success (outside dry-run) mark the
entry posted; on failure only a message is printed and the loop continues. -/
def publish_step (publish : String → Bool) (now : Int) (dry_run : Bool)
    (acc : DB) (post : QueueEntry) : DB :=
  if post_on_fedi publish post.content dry_run then
    (if ¬ dry_run then mark_post_as_posted acc post.id now else acc)
  else acc

/-- `rasis.process_queue`: early return when `can_post_more` is false; pull
pending posts limited to `available_slots`; early return when none; then loop
over the batch publishing each entry, marking it posted on success and merely
printing on failure. -/
def process_queue (publish : String → Bool) (posts_per_hour : Nat) (db : DB)
    (now : Int) (dry_run : Bool) : DB :=
  if ¬ can_post_more db now posts_per_hour then db
  else
    let posts_made := get_posts_in_last_hour db now
    let slots := available_slots posts_per_hour posts_made
    let pending_posts := get_pending_posts db (some slots)
    if pending_posts = [] then db
    else pending_posts.foldl (publish_step publish now dry_run) db

/-- Modelled from the spec: `nextAvailableTime(maxPerWindow, windowDuration)`
(§4.3 Rate Limiter) has no implementation in the source; per the spec it
returns, when capacity is exhausted, the timestamp at which the oldest log
record inside the window falls outside it (oldest-in-window + windowDuration),
and `none` when capacity is currently available. -/
def nextAvailableTime (max_per_window : Nat) (window_duration : Int)
    (db : DB) (now : Int) : Option Int :=
  let in_window := db.posting_log.filter
    (fun r => decide (now - window_duration ≤ r.posted_at))
  if in_window.length < max_per_window then none
  else
    match (in_window.map LogRecord.posted_at).min? with
    | some oldest => some (oldest + window_duration)
    | none => none

/-- One step of the system's lifetime: either a fetch-and-enqueue pass
(`generate_queued_posts`) or a publishing run (`process_queue`), at a given
wall-clock instant. -/
inductive Step where
  | ingest (start_date : Option Int) (feed : Option (List Post)) (dry_run : Bool)
  | run (publish : String → Bool) (dry_run : Bool)

/-- Execute one timed step against the database. -/
def exec_step (posts_per_hour : Nat) (db : DB) (t : Int) : Step → DB
  | .ingest sd feed dr => (generate_queued_posts sd db feed t dr).1
  | .run publish dr => process_queue publish posts_per_hour db t dr

/-- Execute a timed trace of steps from a starting database. -/
def exec_trace (posts_per_hour : Nat) (db : DB) : List (Int × Step) → DB
  | [] => db
  | (t, s) :: rest => exec_trace posts_per_hour (exec_step posts_per_hour db t s) rest

/-- Number of log records whose timestamp lies in the closed one-hour
interval `[s, s + 3600]`. -/
def window_count (log : List LogRecord) (s : Int) : Nat :=
  log.countP (fun r => decide (s ≤ r.posted_at ∧ r.posted_at ≤ s + 3600))

/-! ## Concrete fixtures used by witnesses and counterexamples -/

/-- A feed item the formatter supports (identifier mentions IIDX). -/
def samplePost : Post :=
  { identifier := "IIDX_NEWS", content := "c1", date := "d1",
    timestamp := none, is_ai_summary := false, type := none, headline := none,
    url := none, images := [] }

/-- A feed item no branch of the formatter chain supports. -/
def unknownPost : Post := { samplePost with identifier := "UNKNOWN_GAME" }

/-- A database holding one pending queue entry with id 1. -/
def oneEntryDB : DB :=
  { processed_hashes := [], posting_log := []
    post_queue := [{ id := 1, post_data := samplePost, content := "a",
                     created_at := 0, posted_at := none, status := "pending" }]
    next_queue_id := 2, next_log_id := 1 }

/-- A database holding two pending queue entries (ids 1 and 2, contents
"a" and "b", creation times 0 and 1). -/
def twoEntryDB : DB :=
  { processed_hashes := [], posting_log := []
    post_queue :=
      [{ id := 1, post_data := samplePost, content := "a",
         created_at := 0, posted_at := none, status := "pending" },
       { id := 2, post_data := samplePost, content := "b",
         created_at := 1, posted_at := none, status := "pending" }]
    next_queue_id := 3, next_log_id := 1 }

/-- Two pending entries inserted in order (ids 1 then 2) with the SAME
creation time — `CURRENT_TIMESTAMP` has one-second resolution, so equal
`created_at` values are realistic. -/
def tieDB : DB :=
  { processed_hashes := [], posting_log := []
    post_queue :=
      [{ id := 1, post_data := samplePost, content := "ta",
         created_at := 0, posted_at := none, status := "pending" },
       { id := 2, post_data := samplePost, content := "tb",
         created_at := 0, posted_at := none, status := "pending" }]
    next_queue_id := 3, next_log_id := 1 }

/-- A database whose log holds one record written at 10:00 UTC of day 0
(t = 36000). -/
def hourLogDB : DB :=
  { processed_hashes := [], post_queue := []
    posting_log := [{ id := 1, posted_at := 36000, queue_id := 1 }]
    next_queue_id := 1, next_log_id := 2 }

/-- A database holding five pending queue entries with creation times
0,1,2,3,4 (the spec's 3-per-hour scenario). -/
def fiveEntryDB : DB :=
  { processed_hashes := [], posting_log := []
    post_queue :=
      [{ id := 1, post_data := samplePost, content := "n1",
         created_at := 0, posted_at := none, status := "pending" },
       { id := 2, post_data := samplePost, content := "n2",
         created_at := 1, posted_at := none, status := "pending" },
       { id := 3, post_data := samplePost, content := "n3",
         created_at := 2, posted_at := none, status := "pending" },
       { id := 4, post_data := samplePost, content := "n4",
         created_at := 3, posted_at := none, status := "pending" },
       { id := 5, post_data := samplePost, content := "n5",
         created_at := 4, posted_at := none, status := "pending" }]
    next_queue_id := 6, next_log_id := 1 }

/-! ## Helper lemmas -/

lemma isPending_iff (q : QueueEntry) : isPending q = true ↔ q.status = "pending" := by
  simp [isPending]

lemma get_pending_posts_pos (db : DB) (l : Int) (hl : 0 < l) :
    get_pending_posts db (some l)
      = (List.insertionSort (fun a b => a.created_at ≤ b.created_at)
          (db.post_queue.filter isPending)).take l.toNat := by
  have h0 : l ≠ 0 := by omega
  simp [get_pending_posts, h0, hl]

lemma get_pending_posts_none (db : DB) :
    get_pending_posts db none
      = List.insertionSort (fun a b => a.created_at ≤ b.created_at)
          (db.post_queue.filter isPending) := rfl

end Rasis

namespace Rasis

/-- C10: `get_pending_posts` with limit `0` (or `None`) omits the `LIMIT`
clause — the limit is tested for truthiness — so the whole pending set is
returned rather than an empty list. -/
theorem c10_zero_limit_returns_all (db : DB) :
    get_pending_posts db (some 0) = get_pending_posts db none ∧
    (get_pending_posts db (some 0)).length = db.post_queue.countP isPending := by
  constructor
  · simp [get_pending_posts]
  · simp only [get_pending_posts, ne_eq, not_true_eq_false, if_false, reduceIte]
    rw [(List.perm_insertionSort _ _).length_eq, List.countP_eq_length_filter]

/-- C7: the code does **not** count the log records with timestamp
`≥ now − 1 hour`: at t = 36600 (10:10) a record logged at t = 36000
(10:00 the same day) sorts below the `T`-separated isoformat cutoff and is
not counted — `get_posts_in_last_hour` returns 0 where the claimed count is
1 — so `can_post_more` and `available_slots` report full capacity ten
minutes after a publish even at limit 1. -/
theorem c7_count_misses_recent_posts :
    get_posts_in_last_hour hourLogDB 36600 = 0 ∧
    (hourLogDB.posting_log.filter
      (fun r => decide (36600 - 3600 ≤ r.posted_at))).length = 1 ∧
    can_post_more hourLogDB 36600 1 = true ∧
    available_slots 1 (get_posts_in_last_hour hourLogDB 36600) = 1 := by decide

/-- C4 counterexample: marking entry 1 posted twice appends **two**
`posting_log` records, not one, so the transition double-counts in the rate
limiter and raises no `AlreadyPosted`. -/
theorem c4_counterexample :
    (mark_post_as_posted (mark_post_as_posted oneEntryDB 1 10) 1 20).posting_log.length
      = 2 := by decide

/-- C4 (amended): `mark_post_as_posted` appends one log record
unconditionally on every call — two calls append two records — it sets the
matching entry's status to `posted`, and when no entry has the id it leaves
the queue untouched while still inserting the log record (no `NotFound`,
no `AlreadyPosted`). -/
theorem c4_mark_appends_per_call (db : DB) (qid : Nat) (t1 t2 : Int) :
    (mark_post_as_posted (mark_post_as_posted db qid t1) qid t2).posting_log.length
        = db.posting_log.length + 2 ∧
    (∀ q ∈ (mark_post_as_posted db qid t1).post_queue, q.id = qid →
      q.status = "posted") ∧
    ((∀ q ∈ db.post_queue, q.id ≠ qid) →
      (mark_post_as_posted db qid t1).post_queue = db.post_queue ∧
      (mark_post_as_posted db qid t1).posting_log.length
        = db.posting_log.length + 1) := by
  refine ⟨by simp [mark_post_as_posted], ?_, ?_⟩
  · intro q hq hid
    simp only [mark_post_as_posted, List.mem_map] at hq
    obtain ⟨x, _, hfx⟩ := hq
    by_cases h : x.id = qid
    · rw [if_pos h] at hfx
      rw [← hfx]
    · rw [if_neg h] at hfx
      rw [← hfx] at hid
      exact absurd hid h
  · intro h
    constructor
    · have : db.post_queue.map
          (fun q => if q.id = qid then
            { q with status := "posted", posted_at := some t1 } else q)
          = db.post_queue.map id :=
        List.map_congr_left (fun a ha => by simp [h a ha])
      simpa [mark_post_as_posted] using this
    · simp [mark_post_as_posted]

/-- Witness for C4's amended theorem at a concrete database. -/
theorem c4_mark_appends_per_call_witness :
    (mark_post_as_posted oneEntryDB 7 5).post_queue = oneEntryDB.post_queue ∧
    (mark_post_as_posted oneEntryDB 7 5).posting_log.length
      = oneEntryDB.posting_log.length + 1 :=
  (c4_mark_appends_per_call oneEntryDB 7 5 5).2.2 (by decide)

/-- C5 counterexample: an item whose formatter returns `None` is skipped
with **no** fingerprint recorded — `is_hash_processed` is still false after
the ingest pass, so the item will be fetched and discarded again. -/
theorem c5_counterexample :
    (generate_queued_posts none init_database (some [unknownPost]) 0 false).1
        = init_database ∧
    is_hash_processed
        (generate_queued_posts none init_database (some [unknownPost]) 0 false).1
        (post_hash unknownPost) = false := by decide

/-- C5 (amended): an item whose formatter returns no content is never
enqueued and its fingerprint is **not** recorded either — the whole ingest
pass is a no-op for it, so it is re-examined (and re-discarded) on every
later run. -/
theorem c5_unrenderable_skipped_unrecorded (sd : Option Int) (db : DB)
    (p : Post) (now : Int) (h : generate_post_content p = none) :
    generate_queued_posts sd db (some [p]) now false = (db, []) := by
  simp [generate_queued_posts, ingest_step, h]

/-- Witness for C5's amended theorem on a concrete unsupported item. -/
theorem c5_unrenderable_skipped_unrecorded_witness :
    generate_queued_posts none init_database (some [unknownPost]) 0 false
      = (init_database, []) :=
  c5_unrenderable_skipped_unrecorded none init_database unknownPost 0 (by decide)

/-- C8 counterexample: enqueueing the exact same item twice does **not**
fail with `DuplicateKey`: it creates a second entry with a fresh id. -/
theorem c8_counterexample :
    ((add_to_queue (add_to_queue init_database samplePost "c" 0).1
        samplePost "c" 0).1).post_queue.length = 2 ∧
    (add_to_queue (add_to_queue init_database samplePost "c" 0).1
        samplePost "c" 0).2
      ≠ (add_to_queue init_database samplePost "c" 0).2 := by decide

/-- C8 (amended): `post_queue` has no identity-token column and no
uniqueness constraint, so `add_to_queue` never fails: it always appends a
fresh pending entry and returns its id.  Entry **ids** stay unique (fresh
counter), and the only uniqueness in the schema is `processed_hashes.hash`,
which `add_processed_hash` keeps duplicate-free. -/
theorem c8_add_to_queue_never_fails (db : DB) (post : Post) (c : String)
    (now : Int) :
    (add_to_queue db post c now).1.post_queue
        = db.post_queue ++
          [{ id := db.next_queue_id, post_data := post, content := c,
             created_at := now, posted_at := none, status := "pending" }] ∧
    (add_to_queue db post c now).2 = db.next_queue_id ∧
    ((∀ q ∈ db.post_queue, q.id < db.next_queue_id) →
      db.post_queue.Pairwise (fun a b => a.id ≠ b.id) →
      (add_to_queue db post c now).1.post_queue.Pairwise
        (fun a b => a.id ≠ b.id)) ∧
    (db.processed_hashes.Nodup →
      (add_processed_hash db (post_hash post)).processed_hashes.Nodup) := by
  refine ⟨rfl, rfl, ?_, ?_⟩
  · intro hbound hpw
    rw [add_to_queue]
    simp only [List.pairwise_append, List.pairwise_cons, List.mem_singleton]
    refine ⟨hpw, by simp, ?_⟩
    intro a ha b hb
    rw [hb]
    simp only []
    have := hbound a ha
    simp
    omega
  · intro hnd
    by_cases hc : post_hash post ∈ db.processed_hashes
    · have heq : add_processed_hash db (post_hash post) = db := by
        simp [add_processed_hash, hc]
      rw [heq]
      exact hnd
    · have heq : (add_processed_hash db (post_hash post)).processed_hashes
          = db.processed_hashes ++ [post_hash post] := by
        simp [add_processed_hash, hc]
      rw [heq, List.nodup_append]
      refine ⟨hnd, List.nodup_singleton _, ?_⟩
      intro x hx
      simp only [List.mem_singleton]
      intro hEq
      exact hc (hEq ▸ hx)

/-- Witness for C8's amended theorem on a concrete database. -/
theorem c8_add_to_queue_never_fails_witness :
    (add_to_queue oneEntryDB samplePost "c" 4).1.post_queue.Pairwise
      (fun a b => a.id ≠ b.id) :=
  (c8_add_to_queue_never_fails oneEntryDB samplePost "c" 4).2.2.1
    (by decide) (by decide)

end Rasis

namespace Rasis

/-! ## Ingestion lemmas (claim C2) -/

lemma is_hash_processed_iff (db : DB) (h : String) :
    is_hash_processed db h = true ↔ h ∈ db.processed_hashes := by
  simp [is_hash_processed]

lemma mem_add_processed_hash (db : DB) (h : String) :
    h ∈ (add_processed_hash db h).processed_hashes := by
  by_cases hc : h ∈ db.processed_hashes
  · simp [add_processed_hash, hc]
  · simp [add_processed_hash, hc]

lemma add_processed_hash_mono (db : DB) (g h : String)
    (hh : h ∈ db.processed_hashes) :
    h ∈ (add_processed_hash db g).processed_hashes := by
  by_cases hc : g ∈ db.processed_hashes
  · simpa [add_processed_hash, hc] using hh
  · simp [add_processed_hash, hc]
    exact Or.inl hh

lemma ingest_step_hashes_mono (sd : Option Int) (now : Int) (dr : Bool)
    (acc : DB × List Post) (p : Post) (h : String)
    (hh : h ∈ acc.1.processed_hashes) :
    h ∈ (ingest_step sd now dr acc p).1.processed_hashes := by
  rw [ingest_step]
  split
  · exact hh
  · split
    · exact hh
    · split
      · exact hh
      · split
        · exact add_processed_hash_mono _ _ _ hh
        · exact hh

lemma ingest_fold_hashes_mono (sd : Option Int) (now : Int) (dr : Bool)
    (ps : List Post) : ∀ (acc : DB × List Post) (h : String),
    h ∈ acc.1.processed_hashes →
    h ∈ ((ps.foldl (ingest_step sd now dr) acc).1).processed_hashes := by
  induction ps with
  | nil => intro acc h hh; simpa using hh
  | cons p ps ih =>
    intro acc h hh
    rw [List.foldl_cons]
    exact ih _ h (ingest_step_hashes_mono sd now dr acc p h hh)

/-- An item the ingest loop will not enqueue against this database: either
filtered by the start date, unrenderable, or already fingerprinted. -/
def ingest_skips (sd : Option Int) (db : DB) (p : Post) : Prop :=
  is_post_after_start_date sd p.timestamp = false ∨
  generate_post_content p = none ∨
  post_hash p ∈ db.processed_hashes

lemma ingest_step_skips_eq (sd : Option Int) (now : Int) (dr : Bool)
    (acc : DB × List Post) (p : Post) (h : ingest_skips sd acc.1 p) :
    ingest_step sd now dr acc p = acc := by
  by_cases h1 : is_post_after_start_date sd p.timestamp = true
  · by_cases h2 : is_hash_processed acc.1 (post_hash p) = true
    · simp [ingest_step, h1, h2]
    · rcases h with h | h | h
      · rw [h1] at h; cases h
      · simp [ingest_step, h1, h2, h]
      · exact absurd ((is_hash_processed_iff acc.1 (post_hash p)).mpr h) h2
  · simp [ingest_step, h1]

lemma ingest_fold_skips_eq (sd : Option Int) (now : Int) (dr : Bool)
    (ps : List Post) : ∀ (acc : DB × List Post),
    (∀ p ∈ ps, ingest_skips sd acc.1 p) →
    ps.foldl (ingest_step sd now dr) acc = acc := by
  induction ps with
  | nil => intro acc _; rfl
  | cons q ps ih =>
    intro acc hall
    rw [List.foldl_cons, ingest_step_skips_eq sd now dr acc q (hall q (by simp))]
    exact ih acc (fun p hp => hall p (by simp [hp]))

lemma ingest_fold_skips (sd : Option Int) (now : Int) (ps : List Post) :
    ∀ (acc : DB × List Post), ∀ p ∈ ps,
    ingest_skips sd ((ps.foldl (ingest_step sd now false) acc).1) p := by
  induction ps with
  | nil => intro acc p hp; cases hp
  | cons q ps ih =>
    intro acc p hp
    rw [List.foldl_cons]
    rcases List.mem_cons.mp hp with rfl | hp'
    · have hstep : ingest_skips sd ((ingest_step sd now false acc p).1) p := by
        by_cases h1 : is_post_after_start_date sd p.timestamp = true
        · by_cases h2 : is_hash_processed acc.1 (post_hash p) = true
          · have hm : post_hash p ∈ acc.1.processed_hashes :=
              (is_hash_processed_iff acc.1 (post_hash p)).mp h2
            exact Or.inr (Or.inr (by
              simpa [ingest_step, h1, h2] using hm))
          · cases hgc : generate_post_content p with
            | none => exact Or.inr (Or.inl hgc)
            | some c =>
              refine Or.inr (Or.inr ?_)
              simp only [ingest_step, h1, h2, hgc, not_true_eq_false, if_false,
                Bool.false_eq_true, not_false_eq_true, if_true]
              exact mem_add_processed_hash _ _
        · exact Or.inl (by simpa using h1)
      rcases hstep with h | h | h
      · exact Or.inl h
      · exact Or.inr (Or.inl h)
      · exact Or.inr (Or.inr (ingest_fold_hashes_mono sd now false ps _ _ h))
    · exact ih (ingest_step sd now false acc q) p hp'

/-- C2: ingestion is idempotent — running the whole ingest pass a second
time over the same feed (even at a later clock) changes nothing: no second
queue entry, no second fingerprint record; and `add_processed_hash` on an
already-present fingerprint is a no-op, not an error. -/
theorem c2_ingestion_idempotent (sd : Option Int) (db : DB)
    (feed : Option (List Post)) (now now2 : Int) :
    (generate_queued_posts sd (generate_queued_posts sd db feed now false).1
        feed now2 false).1
      = (generate_queued_posts sd db feed now false).1 ∧
    (∀ (db' : DB) (h : String),
      add_processed_hash (add_processed_hash db' h) h
        = add_processed_hash db' h) := by
  constructor
  · cases feed with
    | none => rfl
    | some ps =>
      simp only [generate_queued_posts]
      have key := ingest_fold_skips_eq sd now2 false ps
        ((List.foldl (ingest_step sd now false) (db, []) ps).1, [])
        (fun p hp => ingest_fold_skips sd now ps (db, []) p hp)
      rw [key]
  · intro db' h
    have h2 : h ∈ (add_processed_hash db' h).processed_hashes :=
      mem_add_processed_hash db' h
    rw [add_processed_hash]
    simp [h2]

end Rasis

namespace Rasis

/-! ## Publishing-loop lemmas (claims C3 and C1) -/

lemma publish_step_eq_true (f : String → Bool) (now : Int) (db : DB)
    (p : QueueEntry) (hf : f p.content = true) :
    publish_step f now false db p = mark_post_as_posted db p.id now := by
  simp [publish_step, post_on_fedi, hf]

lemma publish_step_eq_false (f : String → Bool) (now : Int) (db : DB)
    (p : QueueEntry) (hf : f p.content = false) :
    publish_step f now false db p = db := by
  simp [publish_step, post_on_fedi, hf]

/-- The queue after the publishing loop: every entry whose id belongs to a
successfully published batch element is stamped posted, the rest are
untouched. -/
lemma publish_fold_queue (f : String → Bool) (now : Int)
    (ps : List QueueEntry) : ∀ db : DB,
    (ps.foldl (publish_step f now false) db).post_queue
      = db.post_queue.map (fun q =>
          if ((ps.filter (fun e => f e.content)).map QueueEntry.id).contains q.id
          then { q with status := "posted", posted_at := some now }
          else q) := by
  induction ps with
  | nil => intro db; simp
  | cons p ps ih =>
    intro db
    rw [List.foldl_cons]
    by_cases hf : f p.content = true
    · rw [publish_step_eq_true f now db p hf, ih]
      simp only [mark_post_as_posted, List.map_map, List.filter_cons, hf,
        if_true, List.map_cons, List.contains_cons]
      apply List.map_congr_left
      intro q _
      by_cases hq : q.id = p.id
      · simp only [Function.comp_apply, hq, if_true, beq_self_eq_true,
          Bool.true_or, if_pos]
        split <;> rfl
      · have hbeq : (q.id == p.id) = false := by simpa using hq
        simp only [Function.comp_apply, hq, if_false, hbeq, Bool.false_or]
    · have hf' : f p.content = false := by simpa using hf
      have hfil : List.filter (fun e => f e.content) (p :: ps)
          = List.filter (fun e => f e.content) ps := by
        simp [List.filter_cons, hf']
      rw [publish_step_eq_false f now db p hf', ih, hfil]

/-- The log after the publishing loop: exactly one record per successful
publish is appended, each stamped with the run's clock. -/
lemma publish_fold_log (f : String → Bool) (now : Int)
    (ps : List QueueEntry) : ∀ db : DB, ∃ ext : List LogRecord,
    (ps.foldl (publish_step f now false) db).posting_log
        = db.posting_log ++ ext ∧
    ext.length = ps.countP (fun e => f e.content) ∧
    ∀ r ∈ ext, r.posted_at = now := by
  induction ps with
  | nil => intro db; exact ⟨[], by simp, by simp, by simp⟩
  | cons p ps ih =>
    intro db
    rw [List.foldl_cons]
    by_cases hf : f p.content = true
    · obtain ⟨ext, h1, h2, h3⟩ := ih (mark_post_as_posted db p.id now)
      rw [publish_step_eq_true f now db p hf]
      refine ⟨{ id := db.next_log_id, posted_at := now, queue_id := p.id } :: ext,
        ?_, ?_, ?_⟩
      · rw [h1]
        simp [mark_post_as_posted]
      · simp [List.countP_cons, hf, h2]
      · intro r hr
        rcases List.mem_cons.mp hr with rfl | hr'
        · rfl
        · exact h3 r hr'
    · have hf' : f p.content = false := by simpa using hf
      rw [publish_step_eq_false f now db p hf']
      obtain ⟨ext, h1, h2, h3⟩ := ih db
      exact ⟨ext, h1, by simp [List.countP_cons, hf', h2], h3⟩

lemma process_queue_of_rate_limited (f : String → Bool) (N : Nat) (db : DB)
    (now : Int) (dr : Bool) (hcp : ¬ can_post_more db now N = true) :
    process_queue f N db now dr = db := by
  simp [process_queue, hcp]

lemma process_queue_of_no_pending (f : String → Bool) (N : Nat) (db : DB)
    (now : Int) (dr : Bool)
    (hpe : get_pending_posts db
      (some (available_slots N (get_posts_in_last_hour db now))) = []) :
    process_queue f N db now dr = db := by
  by_cases hcp : can_post_more db now N = true
  · simp [process_queue, hcp, hpe]
  · simp [process_queue, hcp]

lemma process_queue_eq_fold (f : String → Bool) (N : Nat) (db : DB)
    (now : Int) (hcp : can_post_more db now N = true)
    (hpe : get_pending_posts db
      (some (available_slots N (get_posts_in_last_hour db now))) ≠ []) :
    process_queue f N db now false
      = (get_pending_posts db
          (some (available_slots N (get_posts_in_last_hour db now)))).foldl
          (publish_step f now false) db := by
  simp [process_queue, hcp, hpe]

/-- The pulled batch is a sublist of the sorted pending snapshot. -/
lemma get_pending_sublist_sorted (db : DB) (lim : Option Int) :
    (get_pending_posts db lim).Sublist
      (List.insertionSort (fun a b => a.created_at ≤ b.created_at)
        (db.post_queue.filter isPending)) := by
  cases lim with
  | none => exact List.Sublist.refl _
  | some l =>
    simp only [get_pending_posts]
    split
    · split
      · exact List.take_sublist _ _
      · exact List.Sublist.refl _
    · exact List.Sublist.refl _

lemma mem_get_pending (db : DB) (lim : Option Int) (e : QueueEntry)
    (he : e ∈ get_pending_posts db lim) :
    e ∈ db.post_queue ∧ isPending e = true := by
  have hs : e ∈ List.insertionSort (fun a b => a.created_at ≤ b.created_at)
      (db.post_queue.filter isPending) :=
    (get_pending_sublist_sorted db lim).mem he
  have hm : e ∈ db.post_queue.filter isPending :=
    (List.perm_insertionSort _ _).mem_iff.mp hs
  exact ⟨(List.mem_filter.mp hm).1, (List.mem_filter.mp hm).2⟩

lemma get_pending_pairwise_ids (db : DB) (lim : Option Int)
    (hpw : db.post_queue.Pairwise (fun a b => a.id ≠ b.id)) :
    (get_pending_posts db lim).Pairwise (fun a b => a.id ≠ b.id) := by
  have h1 : (db.post_queue.filter isPending).Pairwise
      (fun a b => a.id ≠ b.id) := hpw.filter _
  have h2 : (List.insertionSort (fun a b => a.created_at ≤ b.created_at)
      (db.post_queue.filter isPending)).Pairwise (fun a b => a.id ≠ b.id) :=
    ((List.perm_insertionSort _ _).pairwise_iff
      (fun h => fun he => h he.symm)).mpr h1
  exact List.Pairwise.sublist (get_pending_sublist_sorted db lim) h2

end Rasis

namespace Rasis

/-- C3 counterexample: two pending entries, the Publisher fails on the first
(content "a") and succeeds on the second (content "b"); the run does **not**
stop at the failure — the second entry is published and logged. -/
theorem c3_counterexample :
    (process_queue (fun c => c == "b") 3 twoEntryDB 0 false).posting_log
      = [{ id := 1, posted_at := 0, queue_id := 2 }] ∧
    (process_queue (fun c => c == "b") 3 twoEntryDB 0 false).post_queue.countP
      (fun q => q.status == "posted") = 1 := by decide

/-- C3 (amended): when the Publisher reports failure for an entry, the loop
merely prints and continues with the remaining entries (skip-and-continue):
every successful entry of the pulled batch is logged regardless of earlier
failures, and every failed entry survives in the queue unchanged (still
pending) for the next run; no failure is surfaced to the caller. -/
theorem c3_failure_skips_and_continues (f : String → Bool) (N : Nat)
    (db : DB) (now : Int) :
    (process_queue f N db now false).posting_log.length
      = db.posting_log.length +
        (if can_post_more db now N = true then
          (get_pending_posts db
            (some (available_slots N (get_posts_in_last_hour db now)))).countP
            (fun e => f e.content)
         else 0) ∧
    (db.post_queue.Pairwise (fun a b => a.id ≠ b.id) →
      ∀ e ∈ get_pending_posts db
          (some (available_slots N (get_posts_in_last_hour db now))),
        f e.content = false →
        e ∈ (process_queue f N db now false).post_queue) := by
  constructor
  · by_cases hcp : can_post_more db now N = true
    · by_cases hpe : get_pending_posts db
          (some (available_slots N (get_posts_in_last_hour db now))) = []
      · rw [process_queue_of_no_pending f N db now false hpe, if_pos hcp, hpe]
        simp
      · rw [process_queue_eq_fold f N db now hcp hpe, if_pos hcp]
        obtain ⟨ext, h1, h2, _⟩ := publish_fold_log f now
          (get_pending_posts db
            (some (available_slots N (get_posts_in_last_hour db now)))) db
        rw [h1, List.length_append, h2]
    · rw [process_queue_of_rate_limited f N db now false hcp, if_neg hcp]
      simp
  · intro hpw e he hfe
    by_cases hcp : can_post_more db now N = true
    · by_cases hpe : get_pending_posts db
          (some (available_slots N (get_posts_in_last_hour db now))) = []
      · rw [process_queue_of_no_pending f N db now false hpe]
        exact (mem_get_pending db _ e he).1
      · rw [process_queue_eq_fold f N db now hcp hpe, publish_fold_queue]
        have hedb : e ∈ db.post_queue := (mem_get_pending db _ e he).1
        have hpwp := get_pending_pairwise_ids db
          (some (available_slots N (get_posts_in_last_hour db now))) hpw
        have hnotin : (((get_pending_posts db
            (some (available_slots N (get_posts_in_last_hour db now)))).filter
              (fun x => f x.content)).map QueueEntry.id).contains e.id
              = false := by
          rw [Bool.eq_false_iff]
          intro hcon
          have hmem : e.id ∈ ((get_pending_posts db
              (some (available_slots N (get_posts_in_last_hour db now)))).filter
                (fun x => f x.content)).map QueueEntry.id := by
            simpa [List.elem_iff] using hcon
          obtain ⟨e', he', hid⟩ := List.mem_map.mp hmem
          have he'p := (List.mem_filter.mp he').1
          have he'f := (List.mem_filter.mp he').2
          have hee : e = e' := by
            by_contra hne
            exact (List.Pairwise.forall
              (by intro x y h hh; exact h hh.symm) hpwp he he'p hne) hid.symm
          rw [hee, he'f] at hfe
          cases hfe
        exact List.mem_map.mpr ⟨e, hedb,
          by simp only [hnotin, Bool.false_eq_true, if_false]⟩
    · rw [process_queue_of_rate_limited f N db now false hcp]
      exact (mem_get_pending db _ e he).1

/-- Witness for C3's amended theorem: the failed entry 1 is still in the
queue, untouched, after the run that published entry 2. -/
theorem c3_failure_skips_and_continues_witness :
    { id := 1, post_data := samplePost, content := "a", created_at := 0,
      posted_at := none, status := "pending" : QueueEntry } ∈
      (process_queue (fun c => c == "b") 3 twoEntryDB 0 false).post_queue :=
  (c3_failure_skips_and_continues (fun c => c == "b") 3 twoEntryDB 0).2
    (by decide) _ (by decide) (by decide)

end Rasis

namespace Rasis

/-! ## Ordering lemmas (claim C6) -/

instance : IsTotal QueueEntry (fun a b => a.created_at ≤ b.created_at) :=
  ⟨fun a b => Int.le_total a.created_at b.created_at⟩

instance : IsTrans QueueEntry (fun a b => a.created_at ≤ b.created_at) :=
  ⟨fun _ _ _ h1 h2 => le_trans h1 h2⟩

/-- The executable `get_pending_posts` is one admissible result of the
pending-rows query. -/
lemma get_pending_posts_sound (db : DB) (limit : Option Int) :
    pendingQueryResult db limit (get_pending_posts db limit) := by
  refine ⟨List.insertionSort (fun a b => a.created_at ≤ b.created_at)
    (db.post_queue.filter isPending),
    List.perm_insertionSort _ _, List.sorted_insertionSort _ _, ?_⟩
  cases limit with
  | none => rfl
  | some l => rfl

/-- C6 counterexample: with two pending rows inserted in order (ids 1 then
2) carrying the same creation time, the query contract also admits the
REVERSED order, so `ORDER BY created_at ASC` alone does not guarantee that
ties break by insertion order. -/
theorem c6_counterexample :
    tieDB.post_queue.map QueueEntry.id = [1, 2] ∧
    tieDB.post_queue.map QueueEntry.created_at = [0, 0] ∧
    pendingQueryResult tieDB none
      [{ id := 2, post_data := samplePost, content := "tb",
         created_at := 0, posted_at := none, status := "pending" },
       { id := 1, post_data := samplePost, content := "ta",
         created_at := 0, posted_at := none, status := "pending" }] :=
  ⟨by decide, by decide,
   ⟨[{ id := 2, post_data := samplePost, content := "tb",
       created_at := 0, posted_at := none, status := "pending" },
     { id := 1, post_data := samplePost, content := "ta",
       created_at := 0, posted_at := none, status := "pending" }],
    by decide, by decide, rfl⟩⟩

/-- C6 (amended): for every positive limit and every result the query may
return, the result holds only pending entries, at most `limit` of them,
sorted by creation time ascending, and its head is an oldest pending entry
(so when capacity allows one publish, an entry with minimal creation time
is chosen); the relative order of entries with equal creation times is
unspecified. -/
theorem c6_pending_fifo_contract (db : DB) (l : Int) (res : List QueueEntry)
    (hl : 0 < l) (hq : pendingQueryResult db (some l) res) :
    (∀ e ∈ res, e.status = "pending") ∧
    res.length ≤ l.toNat ∧
    List.Sorted (fun a b => a.created_at ≤ b.created_at) res ∧
    (∀ e, res.head? = some e → ∀ q ∈ db.post_queue, q.status = "pending" →
      e.created_at ≤ q.created_at) := by
  obtain ⟨full, hperm, hsort, hres⟩ := hq
  have h0 : l ≠ 0 := by omega
  have hres' : res = full.take l.toNat := by
    rw [hres]
    simp [h0, hl]
  refine ⟨?_, ?_, ?_, ?_⟩
  · intro e he
    rw [hres'] at he
    have hef : e ∈ full := List.take_subset _ _ he
    have hfl : e ∈ db.post_queue.filter isPending := hperm.mem_iff.mp hef
    exact (isPending_iff e).mp (List.mem_filter.mp hfl).2
  · rw [hres', List.length_take]
    exact min_le_left _ _
  · rw [hres']
    exact List.Pairwise.sublist (List.take_sublist _ _) hsort
  · intro e he q hq' hqp
    rw [hres'] at he
    cases hfull : full with
    | nil => rw [hfull] at he; simp at he
    | cons h t =>
      obtain ⟨n, hln⟩ : ∃ n, l.toNat = n + 1 := ⟨l.toNat - 1, by omega⟩
      rw [hfull, hln, List.take_succ_cons] at he
      simp only [List.head?_cons, Option.some.injEq] at he
      have hq'' : q ∈ h :: t := by
        rw [← hfull]
        exact hperm.mem_iff.mpr
          (List.mem_filter.mpr ⟨hq', (isPending_iff q).mpr hqp⟩)
      have hsort' : List.Sorted (fun a b => a.created_at ≤ b.created_at)
          (h :: t) := by
        rw [← hfull]
        exact hsort
      rcases List.mem_cons.mp hq'' with rfl | hqt
      · rw [← he]
      · rw [← he]
        exact (List.pairwise_cons.mp hsort').1 q hqt

/-- Witness for C6 at a concrete database, limit 1, and the concrete result
the executable query model returns. -/
theorem c6_pending_fifo_contract_witness :
    (get_pending_posts twoEntryDB (some 1)).length ≤ (1 : Int).toNat :=
  (c6_pending_fifo_contract twoEntryDB 1 (get_pending_posts twoEntryDB (some 1))
    (by decide)
    ⟨[{ id := 1, post_data := samplePost, content := "a",
        created_at := 0, posted_at := none, status := "pending" },
      { id := 2, post_data := samplePost, content := "b",
        created_at := 1, posted_at := none, status := "pending" }],
     by decide, by decide, by decide⟩).2.1

end Rasis

namespace Rasis

/-! ## Sliding-window rate-limit lemmas (claim C1) -/

lemma publish_step_dry (f : String → Bool) (now : Int) (db : DB)
    (p : QueueEntry) : publish_step f now true db p = db := by
  simp [publish_step, post_on_fedi]

lemma publish_fold_dry (f : String → Bool) (now : Int) (ps : List QueueEntry) :
    ∀ db : DB, ps.foldl (publish_step f now true) db = db := by
  induction ps with
  | nil => intro db; rfl
  | cons p ps ih =>
    intro db
    rw [List.foldl_cons, publish_step_dry, ih]

lemma process_queue_dry (f : String → Bool) (N : Nat) (db : DB) (now : Int) :
    process_queue f N db now true = db := by
  by_cases hcp : can_post_more db now N = true
  · by_cases hpe : get_pending_posts db
        (some (available_slots N (get_posts_in_last_hour db now))) = []
    · exact process_queue_of_no_pending f N db now true hpe
    · simp [process_queue, hcp, hpe, publish_fold_dry]
  · exact process_queue_of_rate_limited f N db now true hcp

/-- One run appends at most `available_slots` log records, all stamped with
the run's clock, and none at all when the rate limit is already reached. -/
lemma process_queue_log_ext (f : String → Bool) (N : Nat) (db : DB)
    (now : Int) : ∃ ext : List LogRecord,
    (process_queue f N db now false).posting_log = db.posting_log ++ ext ∧
    ext.length ≤ (available_slots N (get_posts_in_last_hour db now)).toNat ∧
    (∀ r ∈ ext, r.posted_at = now) ∧
    (¬ can_post_more db now N = true → ext = []) := by
  by_cases hcp : can_post_more db now N = true
  · by_cases hpe : get_pending_posts db
        (some (available_slots N (get_posts_in_last_hour db now))) = []
    · exact ⟨[], by rw [process_queue_of_no_pending f N db now false hpe]; simp,
        by simp, by simp, fun h => rfl⟩
    · have hmade : get_posts_in_last_hour db now < N := by
        simpa [can_post_more] using hcp
      have hsl : 0 < available_slots N (get_posts_in_last_hour db now) := by
        rw [available_slots]; omega
      obtain ⟨ext, h1, h2, h3⟩ := publish_fold_log f now
        (get_pending_posts db
          (some (available_slots N (get_posts_in_last_hour db now)))) db
      refine ⟨ext, by rw [process_queue_eq_fold f N db now hcp hpe]; exact h1,
        ?_, h3, fun h => absurd hcp h⟩
      calc ext.length
          = (get_pending_posts db
              (some (available_slots N (get_posts_in_last_hour db now)))).countP
              (fun e => f e.content) := h2
        _ ≤ (get_pending_posts db
              (some (available_slots N (get_posts_in_last_hour db now)))).length :=
              List.countP_le_length _
        _ ≤ (available_slots N (get_posts_in_last_hour db now)).toNat := by
              rw [get_pending_posts_pos db _ hsl, List.length_take]
              exact min_le_left _ _
  · exact ⟨[], by rw [process_queue_of_rate_limited f N db now false hcp]; simp,
      by simp, by simp, fun _ => rfl⟩

lemma window_count_append (l1 l2 : List LogRecord) (s : Int) :
    window_count (l1 ++ l2) s = window_count l1 s + window_count l2 s :=
  List.countP_append _ l1 l2

lemma ingest_step_log (sd : Option Int) (now : Int) (dr : Bool)
    (acc : DB × List Post) (p : Post) :
    (ingest_step sd now dr acc p).1.posting_log = acc.1.posting_log := by
  rw [ingest_step]
  split
  · rfl
  · split
    · rfl
    · split
      · rfl
      · split
        · show (add_processed_hash _ _).posting_log = _
          rw [add_processed_hash]
          split <;> rfl
        · rfl

lemma ingest_fold_log (sd : Option Int) (now : Int) (dr : Bool)
    (ps : List Post) : ∀ acc : DB × List Post,
    ((ps.foldl (ingest_step sd now dr) acc).1).posting_log
      = acc.1.posting_log := by
  induction ps with
  | nil => intro acc; rfl
  | cons p ps ih =>
    intro acc
    rw [List.foldl_cons, ih, ingest_step_log]

/-- C1: the sliding-window bound fails in the code.  From five pending
entries and an empty log, a run at t = 36000 (10:00) publishes 3 — the
correct per-run cap — but a second run at t = 36600 (10:10, same day)
compares the mixed-format timestamps, counts 0 posts in the last hour, and
publishes the remaining 2: five successful publishes fall inside the
one-hour window starting at 33100, exceeding POSTS_PER_HOUR = 3. -/
theorem c1_window_bound_violated :
    (process_queue (fun _ => true) 3 fiveEntryDB 36000 false).posting_log.length
        = 3 ∧
    (exec_trace 3 fiveEntryDB
        [(36000, Step.run (fun _ => true) false),
         (36600, Step.run (fun _ => true) false)]).posting_log.length = 5 ∧
    3 < window_count (exec_trace 3 fiveEntryDB
        [(36000, Step.run (fun _ => true) false),
         (36600, Step.run (fun _ => true) false)]).posting_log 33100 := by
  decide

end Rasis

namespace Rasis

/-- C9: the spec-modelled `nextAvailableTime` returns `none` while capacity
remains and oldest-in-window + windowDuration once exhausted; but the code
does not realize the claimed scenario: a run at t = 36000 publishes 3 of
the five pending entries (window full, next-available 39600 = the first
publish's timestamp + 1 hour), yet an immediate second run at the same
instant miscounts 0 posts in the last hour and publishes the remaining 2
instead of 0. -/
theorem c9_next_available_and_code_divergence :
    (∀ (N : Nat) (W : Int) (db : DB) (now : Int),
      (db.posting_log.filter (fun r => decide (now - W ≤ r.posted_at))).length < N →
      nextAvailableTime N W db now = none) ∧
    (∀ (N : Nat) (W : Int) (db : DB) (now m : Int),
      ¬ (db.posting_log.filter
          (fun r => decide (now - W ≤ r.posted_at))).length < N →
      ((db.posting_log.filter (fun r => decide (now - W ≤ r.posted_at))).map
          LogRecord.posted_at).min? = some m →
      nextAvailableTime N W db now = some (m + W)) ∧
    ((process_queue (fun _ => true) 3 fiveEntryDB 36000 false).posting_log.length
        = 3 ∧
     nextAvailableTime 3 3600
        (process_queue (fun _ => true) 3 fiveEntryDB 36000 false) 36000
        = some (36000 + 3600) ∧
     (process_queue (fun _ => true) 3
        (process_queue (fun _ => true) 3 fiveEntryDB 36000 false) 36000
        false).posting_log.length = 5) := by
  refine ⟨?_, ?_, by decide⟩
  · intro N W db now h
    simp only [nextAvailableTime]
    rw [if_pos h]
  · intro N W db now m h hmin
    simp only [nextAvailableTime]
    rw [if_neg h, hmin]

/-- Witness for C9: a fresh database has capacity, so no next-available
time is reported. -/
theorem c9_next_available_and_code_divergence_witness :
    nextAvailableTime 3 3600 init_database 0 = none :=
  c9_next_available_and_code_divergence.1 3 3600 init_database 0 (by decide)

end Rasis
